import Mathlib

/-!
# Verification of pycopier (`src/pycopier/pycopier.py`)

A shallow embedding, in Lean 4, of the copy/purge scheduling engine of
`PyCopier`:

* `Config` mirrors the per-run settings fixed in `PyCopier.__init__`.
* `statMatch` mirrors `PyCopier.statMatch` (the Python-3 branch: exact
  comparison of size, `st_mtime`, `st_atime`; the Python-2 coercion branch
  is dead on the supported interpreter).
* `copyLoop` / `copyFile` mirror `PyCopier._copyFile`, with the
  time-driven flush decisions (`time.time() > nextReportTime`) supplied by
  an oracle `flushAt : Nat → Bool`, and I/O failures injected through
  `openFails` / `failReadAt`.
* `cleanEntries` / `cleanDestinationDirectory` mirror
  `PyCopier._cleanDestinationDirectory` over a rose-tree filesystem.
* `processDirectory` mirrors one iteration of the walk loop in
  `PyCopier._submitOperations` (tree branch), `submitSingleFile` the
  single-file branch over a small path-set filesystem.
* `executeRun` mirrors the drain / move-cleanup tail of `PyCopier.execute`.

Counters (`copiedDataBytes`, `numberOfPurgedFiles`,
`numberOfSkippedCopies`) are mutated in the Python code only through
lock-protected additions, so a run's final counter value is the sum of the
per-job contributions, in whatever order the worker threads interleave;
the embedding models that sum directly and quantifies over permutations
where the interleaving matters.
-/

namespace PyCopier

/-- Per-run settings fixed in `PyCopier.__init__`; read-only during a run.
`reportingTimeDelta` does not appear: the time comparisons it feeds are
abstracted into the `flushAt` oracle of `CopyEnv`. -/
structure Config where
  numWorkers : Nat
  bufferSize : Nat
  zeroLengthFiles : Bool
  ignoreEmptyDirectories : Bool
  copyPermissions : Bool
  move : Bool
  purgeDestination : Bool
  skipSameLookingFiles : Bool
  ignoreErrorOnCopy : Bool
  quiet : Bool
deriving Repr, DecidableEq

/-- The fields of an `os.stat` result that `PyCopier.statMatch` inspects.
Only equality of the timestamps is ever used, so they are modelled as
naturals. -/
structure Stat where
  st_size : Nat
  st_mtime : Nat
  st_atime : Nat
deriving Repr, DecidableEq

/-- Embedding of `PyCopier.statMatch` (lines 89-111), Python-3 branch: sizes,
modification timestamps and access timestamps must all match exactly. -/
def statMatch (srcStat destStat : Stat) : Bool :=
  if srcStat.st_size ≠ destStat.st_size then
    false
  else if srcStat.st_mtime ≠ destStat.st_mtime ∨ srcStat.st_atime ≠ destStat.st_atime then
    false
  else
    true

/-- The environment one `_copyFile` job runs in: the source file's size and
stat, the destination's stat (`none` models the `FileNotFoundError` from
`os.stat(destination)`), the flush-time oracle, and the injected failures:
`openFails` makes one of the two `open` calls raise, `failReadAt = some i`
makes the read of iteration `i` (0-based) raise, `copystatFails` makes the
success-path `shutil.copystat` raise. -/
structure CopyEnv where
  srcSize : Nat
  srcStat : Stat
  destStat? : Option Stat
  flushAt : Nat → Bool
  openFails : Bool
  failReadAt : Option Nat
  copystatFails : Bool

/-- State left by the read/write loop of `_copyFile` (lines 135-148):
`flushed` is the total passed to `addCopiedDataBytes` by the periodic
reports, `localCnt` is the Python local `copiedDataLength` at loop exit,
`written` is the total number of bytes written to the destination file,
`failed` records whether a read raised inside the loop. -/
structure LoopOut where
  flushed : Nat
  localCnt : Nat
  written : Nat
  failed : Bool
deriving Repr, DecidableEq

/-- The `while True` loop of `_copyFile`: at the top of iteration `i`,
flush `copiedDataLength` into the aggregator when the reporting deadline
passed (`flushAt i`); then read up to `b` bytes (which may raise), break
on an empty buffer, otherwise count and write the chunk.  `f.read(b)`
returns `min b remaining` bytes. -/
def copyLoop (b : Nat) (flushAt : Nat → Bool) (failReadAt : Option Nat)
    (i localCnt flushed written remaining : Nat) : LoopOut :=
  let localCnt' := if flushAt i then 0 else localCnt
  let flushed' := if flushAt i then flushed + localCnt else flushed
  if failReadAt = some i then
    { flushed := flushed', localCnt := localCnt', written := written, failed := true }
  else
    let chunk := min b remaining
    if _hc : chunk = 0 then
      { flushed := flushed', localCnt := localCnt', written := written, failed := false }
    else
      copyLoop b flushAt failReadAt (i + 1) (localCnt' + chunk) flushed'
        (written + chunk) (remaining - chunk)
termination_by remaining
decreasing_by
  have hchunk : 0 < min b remaining := Nat.pos_of_ne_zero _hc
  have : 0 < remaining := lt_of_lt_of_le hchunk (Nat.min_le_right b remaining)
  omega

/-- Observable outcome of one `_copyFile` call: `addedBytes` is the total
this job contributed to `copiedDataBytes` (all `addCopiedDataBytes`
calls), `writtenBytes` the bytes actually written to the destination,
`skippedInc` the contribution to `numberOfSkippedCopies`,
`metadataCopied` whether `shutil.copystat` ran to completion,
`sourceRemoved` whether `os.remove(source)` ran, `raised` whether an
exception escaped `_copyFile`. -/
structure CopyResult where
  addedBytes : Nat
  writtenBytes : Nat
  skippedInc : Nat
  metadataCopied : Bool
  sourceRemoved : Bool
  raised : Bool
deriving Repr, DecidableEq

/-- Lines 129-159 of `_copyFile`: the `try`/`except`/`else` around the copy
loop, followed by the unconditional final `addCopiedDataBytes` at line 159
(skipped only when an exception propagates past it). -/
def copyFileBody (cfg : Config) (env : CopyEnv) : CopyResult :=
  if env.openFails then
    -- an `open` raised inside the `try`: nothing read or written,
    -- `copiedDataLength` still 0
    if cfg.ignoreErrorOnCopy then
      -- falls through to line 159, adding 0
      { addedBytes := 0, writtenBytes := 0, skippedInc := 0,
        metadataCopied := false, sourceRemoved := false, raised := false }
    else
      { addedBytes := 0, writtenBytes := 0, skippedInc := 0,
        metadataCopied := false, sourceRemoved := false, raised := true }
  else
    let out :=
      if cfg.zeroLengthFiles then
        -- `if not self.zeroLengthFiles` guards the whole loop
        { flushed := 0, localCnt := 0, written := 0, failed := false }
      else
        copyLoop cfg.bufferSize env.flushAt env.failReadAt 0 0 0 0 env.srcSize
    if out.failed then
      if cfg.ignoreErrorOnCopy then
        -- exception swallowed; control reaches line 159
        { addedBytes := out.flushed + out.localCnt, writtenBytes := out.written,
          skippedInc := 0, metadataCopied := false, sourceRemoved := false,
          raised := false }
      else
        -- `raise` at line 151: line 159 never runs
        { addedBytes := out.flushed, writtenBytes := out.written,
          skippedInc := 0, metadataCopied := false, sourceRemoved := false,
          raised := true }
    else
      -- `else` clause (lines 152-157); an exception raised here is NOT
      -- handled by the preceding `except` (Python try/except/else)
      if cfg.copyPermissions ∧ env.copystatFails then
        { addedBytes := out.flushed, writtenBytes := out.written,
          skippedInc := 0, metadataCopied := false, sourceRemoved := false,
          raised := true }
      else
        { addedBytes := out.flushed + out.localCnt, writtenBytes := out.written,
          skippedInc := 0, metadataCopied := cfg.copyPermissions,
          sourceRemoved := cfg.move, raised := false }

/-- Embedding of `PyCopier._copyFile` (lines 113-159): the skip-same-looking test, then
the copy body. -/
def copyFile (cfg : Config) (env : CopyEnv) : CopyResult :=
  if cfg.skipSameLookingFiles then
    match env.destStat? with
    | none => copyFileBody cfg env
    | some statDest =>
      if statMatch env.srcStat statDest then
        { addedBytes := 0, writtenBytes := 0, skippedInc := 1,
          metadataCopied := false, sourceRemoved := false, raised := false }
      else
        copyFileBody cfg env
  else
    copyFileBody cfg env

/-- Whether `_copyFile` takes the skip branch in environment `env`. -/
def isSkipped (cfg : Config) (env : CopyEnv) : Bool :=
  cfg.skipSameLookingFiles &&
    match env.destStat? with
    | none => false
    | some statDest => statMatch env.srcStat statDest

/-- The final `copiedDataBytes` of a run: the counter starts at 0 in
`execute` (line 287) and each job adds its contributions under
`copiedDataBytesLock`, so the final value is the fold of the per-job
totals in completion order. -/
def runCopiedDataBytes (cfg : Config) (jobs : List CopyEnv) : Nat :=
  jobs.foldl (fun acc env => acc + (copyFile cfg env).addedBytes) 0

/-- Outcome of `PyCopier.execute` after submission: whether a job failure
was re-raised while draining (lines 300-307) and whether the
`shutil.rmtree(self.source)` move-cleanup (lines 315-317) ran. -/
structure ExecOutcome where
  raised : Bool
  sourceTreeRemoved : Bool
deriving Repr, DecidableEq

/-- The drain / move-cleanup tail of `PyCopier.execute` for a directory
source whose submitted jobs are `tasks`: `itm.get()` re-raises the first
job failure, aborting before the move cleanup; otherwise the source tree
is removed exactly when `move` is set and the source was a directory. -/
def executeRun (cfg : Config) (sourceIsDir : Bool) (tasks : List CopyEnv) : ExecOutcome :=
  if tasks.any (fun env => (copyFile cfg env).raised) then
    { raised := true, sourceTreeRemoved := false }
  else
    { raised := false, sourceTreeRemoved := cfg.move && sourceIsDir }

/-- A destination-side filesystem entry, as seen by
`_cleanDestinationDirectory` through `os.listdir` / `os.path.isfile` /
`os.path.isdir`. -/
inductive FsEntry where
  | file (name : String) (size : Nat)
  | dir (name : String) (children : List FsEntry)
deriving Repr

/-- The name by which an entry appears in its parent's listing. -/
def FsEntry.name : FsEntry → String
  | .file n _ => n
  | .dir n _ => n

/-- Total number of files (at any depth) below a list of entries. -/
def totalFileCountList : List FsEntry → Nat
  | [] => 0
  | .file _ _ :: rest => 1 + totalFileCountList rest
  | .dir _ ch :: rest => totalFileCountList ch + totalFileCountList rest

/-- Remove every file at any depth, keeping the (now file-free) directory
skeleton. -/
def removeAllFiles : List FsEntry → List FsEntry
  | [] => []
  | .file _ _ :: rest => removeAllFiles rest
  | .dir n ch :: rest => .dir n (removeAllFiles ch) :: removeAllFiles rest

/-- Embedding of `PyCopier._cleanDestinationDirectory` (lines 161-173) over the entries
of one existing directory: an entry whose name is in `srcListing` is kept;
a file not in the listing is `os.remove`d and counted; a directory not in
the listing is recursed into with an empty listing (`count` is not
incremented for it, and no `rmdir` is ever issued, so the directory entry
itself survives).  Returns the surviving entries and the total added to
`numberOfPurgedFiles` by this call and its recursive calls. -/
def cleanEntries (srcListing : List String) : List FsEntry → List FsEntry × Nat
  | [] => ([], 0)
  | FsEntry.file n sz :: rest =>
    let r := cleanEntries srcListing rest
    if n ∈ srcListing then (FsEntry.file n sz :: r.1, r.2)
    else (r.1, r.2 + 1)
  | FsEntry.dir n ch :: rest =>
    let r := cleanEntries srcListing rest
    if n ∈ srcListing then (FsEntry.dir n ch :: r.1, r.2)
    else
      let rc := cleanEntries [] ch
      (FsEntry.dir n rc.1 :: r.1, r.2 + rc.2)

/-- The method `_cleanDestinationDirectory` as invoked on a destination directory that
may not exist: `os.listdir(destinationDirectory)` raises
(`FileNotFoundError`) when the directory is absent, and nothing in the
method catches it. -/
def cleanDestinationDirectory (destDir : Option (List FsEntry))
    (srcListing : List String) : Except Unit (List FsEntry × Nat) :=
  match destDir with
  | none => Except.error ()
  | some entries => Except.ok (cleanEntries srcListing entries)

/-- The behaviour claim C2 predicts for `_cleanDestinationDirectory`
(stated from the claim's words, for comparison with `cleanEntries`): every
non-retained immediate entry is deleted outright — directories included —
and the counter grows by the number of top-level entries removed. -/
def cleanEntriesClaim (retained : List String) (entries : List FsEntry) :
    List FsEntry × Nat :=
  (entries.filter (fun e => e.name ∈ retained),
   (entries.filter (fun e => e.name ∉ retained)).length)

/-- What the code actually leaves behind (companion to `cleanEntries`):
retained entries survive untouched, non-retained files disappear,
non-retained directories survive but are recursively emptied of files. -/
def cleanedShape (retained : List String) : List FsEntry → List FsEntry
  | [] => []
  | FsEntry.file n sz :: rest =>
    if n ∈ retained then FsEntry.file n sz :: cleanedShape retained rest
    else cleanedShape retained rest
  | FsEntry.dir n ch :: rest =>
    if n ∈ retained then FsEntry.dir n ch :: cleanedShape retained rest
    else FsEntry.dir n (removeAllFiles ch) :: cleanedShape retained rest

/-- What the code actually adds to `numberOfPurgedFiles` (companion to
`cleanEntries`): one per non-retained file, plus the full recursive file
count of each non-retained directory. -/
def countRemovedFiles (retained : List String) : List FsEntry → Nat
  | [] => 0
  | FsEntry.file n _ :: rest =>
    (if n ∈ retained then 0 else 1) + countRemovedFiles retained rest
  | FsEntry.dir n ch :: rest =>
    (if n ∈ retained then 0 else totalFileCountList ch) + countRemovedFiles retained rest

/-- A unit of work handed to the thread pool by `_submitOperations`.
Paths are modelled as lists of components, `os.path.join d n = d ++ [n]`. -/
inductive Job where
  | copy (src : List String) (dest : List String)
  | purge (destDir : List String) (retained : List String)
deriving Repr, DecidableEq

/-- Outcome of the `os.mkdir(destDir)` call: success, `FileExistsError`,
or any other `OSError` (permission denied, missing parent, ...). -/
inductive MkdirResult where
  | ok
  | alreadyExists
  | otherOSError
deriving Repr, DecidableEq

/-- The `try: os.mkdir(destDir) except OSError: pass` at lines 230-233:
whether an exception propagates out of the statement.  `FileExistsError`
and every other mkdir failure are `OSError` subclasses, so the handler
swallows them all. -/
def mkdirPropagates : MkdirResult → Bool
  | .ok => false
  | .alreadyExists => false
  | .otherOSError => false

/-- One iteration of the walk loop in `_submitOperations` (lines 219-250)
for the visited source directory `root` with immediate subdirectory names
`dirs` and file names `files`, destined for `destDir`.  Returns the jobs
submitted during the iteration and whether an exception propagated out of
it (aborting the walk).  `mkOut` is the outcome of the `os.mkdir` call and
`copystatFails` whether `shutil.copystat(root, destDir)` raises. -/
def processDirectory (cfg : Config) (mkOut : MkdirResult) (copystatFails : Bool)
    (root destDir : List String) (dirs files : List String) : List Job × Bool :=
  let purgeJobs : List Job :=
    if cfg.purgeDestination then [Job.purge destDir (files ++ dirs)] else []
  if files.length = 0 ∧ dirs.length = 0 ∧ cfg.ignoreEmptyDirectories then
    (purgeJobs, false)
  else if mkdirPropagates mkOut then
    (purgeJobs, true)
  else if cfg.copyPermissions ∧ copystatFails ∧ ¬cfg.ignoreErrorOnCopy then
    (purgeJobs, true)
  else
    (purgeJobs ++ files.map (fun f => Job.copy (root ++ [f]) (destDir ++ [f])), false)

/-- A path-set filesystem for the single-file branch: which paths exist as
directories and which as files. -/
structure SimpleFs where
  dirs : List (List String)
  files : List (List String)
deriving Repr, DecidableEq

/-- Embedding of `os.path.isdir`. -/
def SimpleFs.isdir (fs : SimpleFs) (p : List String) : Bool :=
  p ∈ fs.dirs

/-- Embedding of `os.mkdir`: creates exactly one directory level; raises `OSError` when
the path already exists or when its parent directory is missing. -/
def SimpleFs.mkdir (fs : SimpleFs) (p : List String) : Except Unit SimpleFs :=
  if p ∈ fs.dirs ∨ p ∈ fs.files then Except.error ()
  else if p.dropLast ∈ fs.dirs then
    Except.ok { dirs := p :: fs.dirs, files := fs.files }
  else Except.error ()

/-- The single-file branch of `_submitOperations` (lines 251-271): resolve
the target, attempt one `os.mkdir` of its parent with `except OSError:
pass`, submit the copy job and, if purging, the purge job for the parent
retaining only the target's basename. -/
def submitSingleFile (cfg : Config) (fs : SimpleFs)
    (source destination : List String) : SimpleFs × List Job :=
  let destFile :=
    if fs.isdir destination then destination ++ [source.getLastD ""]
    else destination
  let destDir := destFile.dropLast
  let fs' :=
    match fs.mkdir destDir with
    | Except.ok fs2 => fs2
    | Except.error _ => fs
  let jobs :=
    [Job.copy source destFile] ++
      (if cfg.purgeDestination then [Job.purge destDir [destFile.getLastD ""]] else [])
  (fs', jobs)

/-- A flush-time oracle under which the reporting deadline never passes
during the copy. -/
def noFlush : Nat → Bool := fun _ => false

/-- Configuration used by the concrete run of claim C1's witness. -/
def cfgC1 : Config :=
  { numWorkers := 4, bufferSize := 2, zeroLengthFiles := false,
    ignoreEmptyDirectories := false, copyPermissions := false, move := false,
    purgeDestination := false, skipSameLookingFiles := true,
    ignoreErrorOnCopy := false, quiet := false }

/-- A 3-byte file with no pre-existing destination: it gets copied. -/
def envCopied : CopyEnv :=
  { srcSize := 3, srcStat := { st_size := 3, st_mtime := 1, st_atime := 2 },
    destStat? := none, flushAt := noFlush, openFails := false,
    failReadAt := none, copystatFails := false }

/-- A 5-byte file whose destination stat matches exactly: it gets
skipped. -/
def envSkippedF : CopyEnv :=
  { srcSize := 5, srcStat := { st_size := 5, st_mtime := 7, st_atime := 8 },
    destStat? := some { st_size := 5, st_mtime := 7, st_atime := 8 },
    flushAt := noFlush, openFails := false, failReadAt := none,
    copystatFails := false }

/-- Configuration for claim C6's counterexample: permissions copied and
copy errors ignored. -/
def cfgC6 : Config :=
  { numWorkers := 1, bufferSize := 8192, zeroLengthFiles := false,
    ignoreEmptyDirectories := false, copyPermissions := true, move := false,
    purgeDestination := false, skipSameLookingFiles := false,
    ignoreErrorOnCopy := true, quiet := false }

/-- A 3-byte file whose copy succeeds but whose `shutil.copystat`
raises. -/
def envCopystatFail : CopyEnv :=
  { srcSize := 3, srcStat := { st_size := 3, st_mtime := 1, st_atime := 2 },
    destStat? := none, flushAt := noFlush, openFails := false,
    failReadAt := none, copystatFails := true }

/-- Configuration for claims C4 and C10: move mode, failures not
ignored. -/
def cfgMove : Config :=
  { numWorkers := 2, bufferSize := 1, zeroLengthFiles := false,
    ignoreEmptyDirectories := false, copyPermissions := false, move := true,
    purgeDestination := false, skipSameLookingFiles := false,
    ignoreErrorOnCopy := false, quiet := false }

/-- A 2-byte file whose second read raises: one chunk was already written
but never flushed to the aggregator. -/
def envReadFail : CopyEnv :=
  { srcSize := 2, srcStat := { st_size := 2, st_mtime := 1, st_atime := 2 },
    destStat? := none, flushAt := noFlush, openFails := false,
    failReadAt := some 1, copystatFails := false }

/-- Configuration for claim C5's counterexample: errors on copy are NOT
ignored, so the claim predicts that a non-"already exists" mkdir failure
propagates. -/
def cfgC5 : Config :=
  { numWorkers := 1, bufferSize := 8192, zeroLengthFiles := false,
    ignoreEmptyDirectories := false, copyPermissions := false, move := false,
    purgeDestination := false, skipSameLookingFiles := false,
    ignoreErrorOnCopy := false, quiet := false }

/-- Configuration for claim C8's witness: tree mode with purge enabled. -/
def cfgC8 : Config :=
  { numWorkers := 2, bufferSize := 8192, zeroLengthFiles := false,
    ignoreEmptyDirectories := false, copyPermissions := false, move := false,
    purgeDestination := true, skipSameLookingFiles := false,
    ignoreErrorOnCopy := false, quiet := false }

/-- Filesystem for claim C9's counterexample: only the root directory
exists. -/
def fsRootOnly : SimpleFs := { dirs := [[]], files := [] }

/-- Loop invariant: the local counter always holds exactly the bytes
written since the last flush, i.e. flushed + local + (bytes written before
entry) = (initial flushed + local) + (total bytes written). -/
theorem copyLoop_sum (b : Nat) (flushAt : Nat → Bool) (failReadAt : Option Nat)
    (remaining : Nat) :
    ∀ i localCnt flushed written,
      (copyLoop b flushAt failReadAt i localCnt flushed written remaining).flushed +
        (copyLoop b flushAt failReadAt i localCnt flushed written remaining).localCnt +
        written =
      flushed + localCnt +
        (copyLoop b flushAt failReadAt i localCnt flushed written remaining).written := by
  induction remaining using Nat.strong_induction_on with
  | _ remaining ih =>
    intro i localCnt flushed written
    rw [copyLoop]
    by_cases hfail : failReadAt = some i
    · by_cases hf : flushAt i <;> simp [hfail, hf]
    · by_cases hc : min b remaining = 0
      · by_cases hf : flushAt i <;> simp [hfail, hf, hc]
      · have hlt : remaining - min b remaining < remaining := by
          have h1 : 0 < min b remaining := Nat.pos_of_ne_zero hc
          have h2 : min b remaining ≤ remaining := Nat.min_le_right b remaining
          omega
        by_cases hf : flushAt i
        · have hrec := ih (remaining - min b remaining) hlt (i + 1)
            (min b remaining) (flushed + localCnt) (written + min b remaining)
          simp [hfail, hf, hc]
          omega
        · have hrec := ih (remaining - min b remaining) hlt (i + 1)
            (localCnt + min b remaining) flushed (written + min b remaining)
          simp [hfail, hf, hc]
          omega

/-- With no injected read failure and a positive buffer size, the loop
terminates normally having written the whole file. -/
theorem copyLoop_complete (b : Nat) (hb : 0 < b) (flushAt : Nat → Bool)
    (remaining : Nat) :
    ∀ i localCnt flushed written,
      (copyLoop b flushAt none i localCnt flushed written remaining).failed = false ∧
      (copyLoop b flushAt none i localCnt flushed written remaining).written =
        written + remaining := by
  induction remaining using Nat.strong_induction_on with
  | _ remaining ih =>
    intro i localCnt flushed written
    rw [copyLoop]
    by_cases hc : min b remaining = 0
    · have hr : remaining = 0 := by omega
      by_cases hf : flushAt i <;> simp [hf, hc, hr]
    · have hlt : remaining - min b remaining < remaining := by omega
      by_cases hf : flushAt i
      · have hrec := ih (remaining - min b remaining) hlt (i + 1)
          (min b remaining) (flushed + localCnt) (written + min b remaining)
        simp [hf, hc]
        exact ⟨hrec.1, by omega⟩
      · have hrec := ih (remaining - min b remaining) hlt (i + 1)
          (localCnt + min b remaining) flushed (written + min b remaining)
        simp [hf, hc]
        exact ⟨hrec.1, by omega⟩

/-- When the skip branch is not taken, `_copyFile` reduces to its copy
body. -/
theorem copyFile_eq_body (cfg : Config) (env : CopyEnv)
    (h : isSkipped cfg env = false) : copyFile cfg env = copyFileBody cfg env := by
  unfold copyFile
  unfold isSkipped at h
  rcases hd : env.destStat? with _ | d
  · by_cases hs : cfg.skipSameLookingFiles <;> simp [hs, hd]
  · by_cases hs : cfg.skipSameLookingFiles <;> simp [hs, hd] at h ⊢
    simp [h]

/-- When the skip branch is taken, `_copyFile` increments the skip counter
and returns before touching any bytes. -/
theorem copyFile_eq_skip (cfg : Config) (env : CopyEnv)
    (h : isSkipped cfg env = true) :
    copyFile cfg env =
      { addedBytes := 0, writtenBytes := 0, skippedInc := 1,
        metadataCopied := false, sourceRemoved := false, raised := false } := by
  unfold copyFile
  unfold isSkipped at h
  rcases hd : env.destStat? with _ | d <;>
    by_cases hs : cfg.skipSameLookingFiles <;> simp [hs, hd] at h ⊢
  simp [h]

/-- With no injected failure, a `_copyFile` call does not raise and
contributes exactly the source size to `copiedDataBytes` (zero when
skipped or in zero-length mode). -/
theorem copyFile_no_fail (cfg : Config) (env : CopyEnv)
    (hb : 0 < cfg.bufferSize)
    (ho : env.openFails = false) (hfr : env.failReadAt = none)
    (hcs : cfg.copyPermissions = true → env.copystatFails = false) :
    (copyFile cfg env).raised = false ∧
    (copyFile cfg env).addedBytes =
      (if isSkipped cfg env then 0
       else if cfg.zeroLengthFiles then 0 else env.srcSize) := by
  by_cases hsk : isSkipped cfg env
  · rw [copyFile_eq_skip cfg env hsk]
    simp [hsk]
  · rw [copyFile_eq_body cfg env (by simpa using hsk)]
    have hguard : ¬(cfg.copyPermissions ∧ env.copystatFails) := by
      rintro ⟨h1, h2⟩
      rw [hcs h1] at h2
      exact Bool.false_ne_true h2
    unfold copyFileBody
    rw [ho]
    by_cases hz : cfg.zeroLengthFiles
    · simp [hz, hguard, hsk]
    · have hcomp := copyLoop_complete cfg.bufferSize hb env.flushAt env.srcSize 0 0 0 0
      have hsum := copyLoop_sum cfg.bufferSize env.flushAt none env.srcSize 0 0 0 0
      rw [hfr]
      simp only [hz, if_false, Bool.false_eq_true, hcomp.1, hguard]
      simp [hsk]
      omega

/-- The call `os.remove(source)` sits in the success (`else`) clause of
`_copyFile`, so a call that raises never deletes the source file. -/
theorem copyFile_raised_not_removed (cfg : Config) (env : CopyEnv)
    (h : (copyFile cfg env).raised = true) :
    (copyFile cfg env).sourceRemoved = false := by
  by_cases hsk : isSkipped cfg env
  · rw [copyFile_eq_skip cfg env hsk] at h
    simp at h
  · rw [copyFile_eq_body cfg env (by simpa using hsk)] at h ⊢
    unfold copyFileBody at h ⊢
    by_cases ho : env.openFails <;>
      by_cases hig : cfg.ignoreErrorOnCopy <;>
        simp only [ho, hig, if_true, if_false] at h ⊢ <;>
          try rfl
    all_goals {
      by_cases hf : (if cfg.zeroLengthFiles then
          ({ flushed := 0, localCnt := 0, written := 0, failed := false } : LoopOut)
        else
          copyLoop cfg.bufferSize env.flushAt env.failReadAt 0 0 0 0 env.srcSize).failed <;>
        by_cases hg : cfg.copyPermissions ∧ env.copystatFails <;>
          simp_all
    }

/-- Folding additions of `f` over a list starting from `acc` yields `acc`
plus the sum of the images. -/
theorem foldl_add_eq_sum {α : Type} (f : α → Nat) (l : List α) :
    ∀ acc : Nat, l.foldl (fun a x => a + f x) acc = acc + (l.map f).sum := by
  induction l with
  | nil => intro acc; simp
  | cons x xs ih =>
    intro acc
    simp [List.foldl_cons, ih (acc + f x)]
    omega

/-- Per-task totals under a no-failure run equal the skip/zero-length
adjusted sizes, task by task. -/
theorem map_addedBytes_eq (cfg : Config) (hb : 0 < cfg.bufferSize) :
    ∀ l : List CopyEnv,
      (∀ env ∈ l, env.openFails = false ∧ env.failReadAt = none ∧
        (cfg.copyPermissions = true → env.copystatFails = false)) →
      (l.map (fun env => (copyFile cfg env).addedBytes)).sum =
        (l.map (fun env =>
          if isSkipped cfg env then 0
          else if cfg.zeroLengthFiles then 0 else env.srcSize)).sum := by
  intro l
  induction l with
  | nil => intro _; rfl
  | cons x xs ih =>
    intro hl
    have hx := hl x (List.mem_cons_self x xs)
    have hxs := ih (fun env he => hl env (List.mem_cons_of_mem x he))
    simp only [List.map_cons, List.sum_cons, hxs,
      (copyFile_no_fail cfg x hb hx.1 hx.2.1 hx.2.2).2]

/-- C1: over any run (any completion order of the submitted copy jobs),
with worker count in 1..16 and buffer size in {1, 2, 1024, 4096, 8192},
the final `copiedDataBytes` equals the sum of the sizes of the files
actually copied; skipped files and zero-length-mode files contribute
zero. -/
theorem copiedDataBytes_eq_copied_sizes (cfg : Config)
    (tasks order : List CopyEnv)
    (_hw : 1 ≤ cfg.numWorkers ∧ cfg.numWorkers ≤ 16)
    (hbuf : cfg.bufferSize ∈ [1, 2, 1024, 4096, 8192])
    (hperm : order.Perm tasks)
    (hok : ∀ env ∈ tasks, env.openFails = false ∧ env.failReadAt = none ∧
      (cfg.copyPermissions = true → env.copystatFails = false)) :
    runCopiedDataBytes cfg order =
      (tasks.map (fun env =>
        if isSkipped cfg env then 0
        else if cfg.zeroLengthFiles then 0 else env.srcSize)).sum := by
  have hb : 0 < cfg.bufferSize := by
    simp only [List.mem_cons, List.not_mem_nil, or_false] at hbuf
    rcases hbuf with h | h | h | h | h <;> omega
  have h1 : runCopiedDataBytes cfg order =
      (order.map (fun env => (copyFile cfg env).addedBytes)).sum := by
    unfold runCopiedDataBytes
    rw [foldl_add_eq_sum]
    omega
  have h2 : (order.map (fun env => (copyFile cfg env).addedBytes)).sum =
      (tasks.map (fun env => (copyFile cfg env).addedBytes)).sum :=
    List.Perm.sum_eq (hperm.map _)
  rw [h1, h2, map_addedBytes_eq cfg hb tasks hok]

/-- Witness for C1: a two-file run (one copied 3-byte file, one skipped
file) drained in reversed order reports exactly 3 bytes. -/
theorem copiedDataBytes_eq_copied_sizes_witness :
    runCopiedDataBytes cfgC1 [envSkippedF, envCopied] =
      ([envCopied, envSkippedF].map (fun env =>
        if isSkipped cfgC1 env then 0
        else if cfgC1.zeroLengthFiles then 0 else env.srcSize)).sum ∧
    ([envCopied, envSkippedF].map (fun env =>
        if isSkipped cfgC1 env then 0
        else if cfgC1.zeroLengthFiles then 0 else env.srcSize)).sum = 3 := by
  constructor
  · exact copiedDataBytes_eq_copied_sizes cfgC1 [envCopied, envSkippedF]
      [envSkippedF, envCopied] (by decide) (by decide)
      (List.Perm.swap envCopied envSkippedF [])
      (by
        intro env henv
        simp only [List.mem_cons, List.not_mem_nil, or_false] at henv
        rcases henv with rfl | rfl <;> exact ⟨rfl, rfl, fun _ => rfl⟩)
  · simp [isSkipped, statMatch, cfgC1, envCopied, envSkippedF]

/-- C3: with skip-same-looking enabled, a missing destination falls
through to the normal copy body, while a destination whose size and both
timestamps exactly match the source's makes `_copyFile` bump the skip
counter by one and return with no bytes read, written or counted. -/
theorem skipSameLooking_spec (cfg : Config) (env : CopyEnv)
    (hskip : cfg.skipSameLookingFiles = true) :
    (env.destStat? = none → copyFile cfg env = copyFileBody cfg env) ∧
    (∀ d, env.destStat? = some d →
      env.srcStat.st_size = d.st_size →
      env.srcStat.st_mtime = d.st_mtime →
      env.srcStat.st_atime = d.st_atime →
      copyFile cfg env =
        { addedBytes := 0, writtenBytes := 0, skippedInc := 1,
          metadataCopied := false, sourceRemoved := false, raised := false }) := by
  constructor
  · intro hd
    unfold copyFile
    simp [hskip, hd]
  · intro d hd h1 h2 h3
    unfold copyFile
    simp [hskip, hd, statMatch, h1, h2, h3]

/-- Witness for C3: a file whose destination stat matches exactly is
skipped — counter bumped once, nothing copied. -/
theorem skipSameLooking_spec_witness :
    copyFile cfgC1 envSkippedF =
      { addedBytes := 0, writtenBytes := 0, skippedInc := 1,
        metadataCopied := false, sourceRemoved := false, raised := false } :=
  (skipSameLooking_spec cfgC1 envSkippedF rfl).2
    { st_size := 5, st_mtime := 7, st_atime := 8 } rfl rfl rfl rfl

/-- C4: with move set, a directory-source run in which no job raised ends
with the source tree removed; and when a copy fails with
ignore-error-on-copy unset, that source file is not deleted and the
whole-tree deletion is skipped because the failure re-raises first. -/
theorem move_semantics (cfg : Config) (tasks : List CopyEnv) :
    (cfg.move = true →
      (∀ env ∈ tasks, (copyFile cfg env).raised = false) →
      executeRun cfg true tasks =
        { raised := false, sourceTreeRemoved := true }) ∧
    (∀ env ∈ tasks, cfg.ignoreErrorOnCopy = false →
      (copyFile cfg env).raised = true →
      (copyFile cfg env).sourceRemoved = false ∧
      (executeRun cfg true tasks).sourceTreeRemoved = false) := by
  constructor
  · intro hm hall
    unfold executeRun
    have hany : tasks.any (fun env => (copyFile cfg env).raised) = false := by
      rw [List.any_eq_false]
      intro env he
      simp [hall env he]
    simp [hany, hm]
  · intro env hmem _hig hr
    refine ⟨copyFile_raised_not_removed cfg env hr, ?_⟩
    unfold executeRun
    have hany : tasks.any (fun env => (copyFile cfg env).raised) = true := by
      rw [List.any_eq_true]
      exact ⟨env, hmem, by simp [hr]⟩
    simp [hany]

/-- Witness for C4: a clean one-file move run removes the source tree; a
run whose only copy job raises removes neither the file nor the tree. -/
theorem move_semantics_witness :
    executeRun cfgMove true [envCopied] =
      { raised := false, sourceTreeRemoved := true } ∧
    (copyFile cfgMove envReadFail).sourceRemoved = false ∧
    (executeRun cfgMove true [envReadFail]).sourceTreeRemoved = false := by
  have hfail : (copyFile cfgMove envReadFail).raised = true := by
    simp [copyFile, copyFileBody, isSkipped, cfgMove, envReadFail, copyLoop, noFlush]
  refine ⟨?_, ?_⟩
  · exact (move_semantics cfgMove [envCopied]).1 rfl
      (by
        intro env henv
        simp only [List.mem_cons, List.not_mem_nil, or_false] at henv
        subst henv
        exact (copyFile_no_fail cfgMove envCopied (by decide) rfl rfl
          (fun h => by simp [cfgMove] at h)).1)
  · exact (move_semantics cfgMove [envReadFail]).2 envReadFail
      (List.mem_cons_self envReadFail []) rfl hfail

/-- With no injected read failure the loop never reports a failure,
whatever the buffer size. -/
theorem copyLoop_none_failed (b : Nat) (flushAt : Nat → Bool) (remaining : Nat) :
    ∀ i localCnt flushed written,
      (copyLoop b flushAt none i localCnt flushed written remaining).failed = false := by
  induction remaining using Nat.strong_induction_on with
  | _ remaining ih =>
    intro i localCnt flushed written
    rw [copyLoop]
    by_cases hc : min b remaining = 0
    · by_cases hf : flushAt i <;> simp [hf, hc]
    · have hlt : remaining - min b remaining < remaining := by omega
      by_cases hf : flushAt i <;> simp [hf, hc] <;>
        exact ih (remaining - min b remaining) hlt _ _ _ _

/-- Counterexample to C6: the copy of `envCopystatFail` succeeds, its
`shutil.copystat` raises, and — although `ignoreErrorOnCopy` is set in
`cfgC6` — the exception escapes `_copyFile`: the claim's "silently ignored
when ignore-error-on-copy is set" is false.  The `except` at line 149 only
covers the `try` block, not the `else` clause holding the `copystat`. -/
theorem metadataCopy_ignored_cex :
    cfgC6.ignoreErrorOnCopy = true ∧
    (copyFile cfgC6 envCopystatFail).raised = true := by
  constructor
  · rfl
  · simp [copyFile, copyFileBody, isSkipped, cfgC6, envCopystatFail, copyLoop,
      noFlush]

/-- C6 (amended): on a successful copy with copy-permissions set the mode
and timestamps are copied to the destination, but a failure of that
metadata copy always propagates — regardless of ignore-error-on-copy
(note no hypothesis on `cfg.ignoreErrorOnCopy` below) — and also skips
the move-mode source deletion. -/
theorem metadataCopy_policy (cfg : Config) (env : CopyEnv)
    (hperm : cfg.copyPermissions = true)
    (hnoskip : isSkipped cfg env = false)
    (ho : env.openFails = false)
    (hfr : env.failReadAt = none) :
    (env.copystatFails = false →
      (copyFile cfg env).metadataCopied = true ∧
      (copyFile cfg env).raised = false) ∧
    (env.copystatFails = true →
      (copyFile cfg env).raised = true ∧
      (copyFile cfg env).sourceRemoved = false) := by
  rw [copyFile_eq_body cfg env hnoskip]
  unfold copyFileBody
  rw [ho, hfr]
  have hnf : ∀ out : LoopOut,
      (if cfg.zeroLengthFiles then
        ({ flushed := 0, localCnt := 0, written := 0, failed := false } : LoopOut)
      else copyLoop cfg.bufferSize env.flushAt none 0 0 0 0 env.srcSize).failed
        = false := by
    intro _
    by_cases hz : cfg.zeroLengthFiles <;>
      simp [hz, copyLoop_none_failed cfg.bufferSize env.flushAt env.srcSize]
  constructor
  · intro hcs
    simp [hnf ⟨0, 0, 0, false⟩, hperm, hcs]
  · intro hcs
    simp [hnf ⟨0, 0, 0, false⟩, hperm, hcs]

/-- Witness for C6's amended statement: under `cfgC6` (permissions copied,
errors "ignored") a clean file gets its metadata copied, while a file
whose `copystat` raises propagates the exception and keeps the source. -/
theorem metadataCopy_policy_witness :
    ((copyFile cfgC6 envCopied).metadataCopied = true ∧
      (copyFile cfgC6 envCopied).raised = false) ∧
    ((copyFile cfgC6 envCopystatFail).raised = true ∧
      (copyFile cfgC6 envCopystatFail).sourceRemoved = false) :=
  ⟨(metadataCopy_policy cfgC6 envCopied rfl rfl rfl rfl).1 rfl,
   (metadataCopy_policy cfgC6 envCopystatFail rfl rfl rfl rfl).2 rfl⟩

/-- C10: when a copy fails and ignore-error-on-copy is unset, the
`raise` at line 151 skips the final flush at line 159, so the job's
contribution to `copiedDataBytes` is exactly the periodic flushes: the
bytes accumulated in the local counter since the last flush (the loop
output's `localCnt`) are never added, and the reported total falls short
of the bytes actually written by exactly that amount. -/
theorem unflushed_bytes_lost (cfg : Config) (env : CopyEnv)
    (hig : cfg.ignoreErrorOnCopy = false)
    (hz : cfg.zeroLengthFiles = false)
    (ho : env.openFails = false)
    (hnoskip : isSkipped cfg env = false)
    (hfail : (copyLoop cfg.bufferSize env.flushAt env.failReadAt
        0 0 0 0 env.srcSize).failed = true) :
    (copyFile cfg env).raised = true ∧
    (copyFile cfg env).addedBytes +
        (copyLoop cfg.bufferSize env.flushAt env.failReadAt
          0 0 0 0 env.srcSize).localCnt =
      (copyFile cfg env).writtenBytes := by
  rw [copyFile_eq_body cfg env hnoskip]
  unfold copyFileBody
  rw [ho]
  have hsum := copyLoop_sum cfg.bufferSize env.flushAt env.failReadAt
    env.srcSize 0 0 0 0
  simp [hz, hfail, hig]
  omega

/-- Witness for C10: a 2-byte copy with buffer size 1 that fails at the
second read has written 1 byte but reports 0 — strictly fewer than
written. -/
theorem unflushed_bytes_lost_witness :
    (copyFile cfgMove envReadFail).raised = true ∧
    (copyFile cfgMove envReadFail).addedBytes <
      (copyFile cfgMove envReadFail).writtenBytes := by
  have h := unflushed_bytes_lost cfgMove envReadFail rfl rfl rfl
    (by simp [isSkipped, cfgMove, envReadFail])
    (by simp [copyLoop, cfgMove, envReadFail, noFlush])
  have hl : (copyLoop cfgMove.bufferSize envReadFail.flushAt
      envReadFail.failReadAt 0 0 0 0 envReadFail.srcSize).localCnt = 1 := by
    simp [copyLoop, cfgMove, envReadFail, noFlush]
  have h2 := h.2
  rw [hl] at h2
  exact ⟨h.1, by omega⟩

/-- With an empty retained listing, the purge empties every file at every
depth, keeps the directory skeleton, and counts every removed file. -/
theorem cleanEntries_nil : ∀ l : List FsEntry,
    cleanEntries [] l = (removeAllFiles l, totalFileCountList l) := by
  have H : ∀ n, ∀ l : List FsEntry, sizeOf l ≤ n →
      cleanEntries [] l = (removeAllFiles l, totalFileCountList l) := by
    intro n
    induction n with
    | zero =>
      intro l hl
      cases l with
      | nil => simp [cleanEntries, removeAllFiles, totalFileCountList]
      | cons e rest => simp at hl
    | succ n ih =>
      intro l hl
      match l with
      | [] => simp [cleanEntries, removeAllFiles, totalFileCountList]
      | FsEntry.file nm sz :: rest =>
        have hr : sizeOf rest ≤ n := by simp at hl; omega
        simp [cleanEntries, removeAllFiles, totalFileCountList, ih rest hr,
          Nat.add_comm]
      | FsEntry.dir nm ch :: rest =>
        have hr : sizeOf rest ≤ n := by simp at hl; omega
        have hc : sizeOf ch ≤ n := by simp at hl; omega
        simp [cleanEntries, removeAllFiles, totalFileCountList, ih rest hr,
          ih ch hc, Nat.add_comm]
  intro l
  exact H (sizeOf l) l le_rfl

/-- Counterexample to C2: purging a directory holding a stale
subdirectory with two files.  The claim predicts the subdirectory is
removed outright and the counter grows by one (the single top-level entry
removed); the code instead leaves the (emptied) subdirectory in place and
adds 2 — one per descendant file — exactly what
`tests.py::test_cleaning_directory` asserts. -/
theorem purge_count_cex :
    cleanEntries [] [FsEntry.dir "d" [FsEntry.file "a" 1, FsEntry.file "b" 2]] =
      ([FsEntry.dir "d" []], 2) ∧
    cleanEntriesClaim [] [FsEntry.dir "d" [FsEntry.file "a" 1, FsEntry.file "b" 2]] =
      ([], 1) ∧
    cleanEntries [] [FsEntry.dir "d" [FsEntry.file "a" 1, FsEntry.file "b" 2]] ≠
      cleanEntriesClaim [] [FsEntry.dir "d" [FsEntry.file "a" 1, FsEntry.file "b" 2]] := by
  refine ⟨?_, ?_, ?_⟩ <;>
    simp [cleanEntries, cleanEntriesClaim, FsEntry.name]

/-- C2 (amended): `_cleanDestinationDirectory` removes each non-retained
immediate file and recursively empties (but keeps) each non-retained
directory; the purged-file counter grows by the total number of files
removed at any depth — a purged directory contributes its recursive file
count, not one. -/
theorem cleanEntries_spec (retained : List String) (l : List FsEntry) :
    cleanEntries retained l =
      (cleanedShape retained l, countRemovedFiles retained l) := by
  induction l with
  | nil => simp [cleanEntries, cleanedShape, countRemovedFiles]
  | cons e rest ih =>
    cases e with
    | file nm sz =>
      by_cases hm : nm ∈ retained <;>
        simp [cleanEntries, cleanedShape, countRemovedFiles, ih, hm,
          Nat.add_comm]
    | dir nm ch =>
      by_cases hm : nm ∈ retained <;>
        simp [cleanEntries, cleanedShape, countRemovedFiles, ih, hm,
          cleanEntries_nil ch, Nat.add_comm]

/-- Counterexample to C7: `_cleanDestinationDirectory` on a missing
destination directory is not a no-op — `os.listdir` raises
`FileNotFoundError` and nothing catches it, so the purge job fails
instead of returning successfully. -/
theorem purge_missing_dir_cex :
    cleanDestinationDirectory none ["kept"] = Except.error () ∧
    cleanDestinationDirectory none ["kept"] ≠ Except.ok ([], 0) := by
  exact ⟨rfl, by simp [cleanDestinationDirectory]⟩

/-- C7 (amended): invoked on a destination directory that does not exist,
`_cleanDestinationDirectory` deletes nothing and leaves every counter
unchanged, but it raises (the listing fails) rather than silently
returning. -/
theorem purge_missing_dir_raises (retained : List String) :
    cleanDestinationDirectory none retained = Except.error () := rfl

/-- Counterexample to C5: a directory-creation failure other than
"already exists" (`MkdirResult.otherOSError`), with ignore-error-on-copy
unset in `cfgC5`, does NOT propagate out of the walk iteration — the
`except OSError: pass` at line 232 swallows every `OSError`, not just
`FileExistsError`.  The claim predicts the second component `true`. -/
theorem mkdir_policy_cex :
    cfgC5.ignoreErrorOnCopy = false ∧
    (processDirectory cfgC5 MkdirResult.otherOSError false
        ["src"] ["dst"] ["d"] ["f"]).2 = false := by
  exact ⟨rfl, rfl⟩

/-- C5 (amended): an "already exists" mkdir error is tolerated, and so is
every other OS-level directory-creation error — the walk iteration
behaves exactly as if the mkdir had succeeded, regardless of
ignore-error-on-copy. -/
theorem mkdir_errors_all_tolerated (cfg : Config) (m : MkdirResult) (cs : Bool)
    (root destDir : List String) (dirs files : List String) :
    processDirectory cfg m cs root destDir dirs files =
      processDirectory cfg MkdirResult.ok cs root destDir dirs files := by
  cases m <;> rfl

/-- C8: in a tree-mode walk iteration with purge enabled, the retained
set of the purge job submitted for a directory contains the target
basename of every copy job submitted for that directory: copy targets are
`destDir ++ [f]` for `f` in the source file listing, and the purge job
retains the whole source listing `files ++ dirs`. -/
theorem purge_retains_copy_targets (cfg : Config) (mkOut : MkdirResult)
    (cs : Bool) (root destDir : List String) (dirs files : List String)
    (d ret s dst : List String) (f : String)
    (hpurge : cfg.purgeDestination = true)
    (hp : Job.purge d ret ∈ (processDirectory cfg mkOut cs root destDir dirs files).1)
    (hc : Job.copy s dst ∈ (processDirectory cfg mkOut cs root destDir dirs files).1)
    (hlast : dst.getLast? = some f) :
    f ∈ ret := by
  unfold processDirectory at hp hc
  simp only [hpurge, if_true] at hp hc
  split_ifs at hp hc with h1 h2 h3
  · simp at hc
  · simp at hc
  · simp at hc
  · simp only [List.mem_append, List.mem_singleton, List.mem_map] at hp hc
    rcases hp with hp | ⟨x, _, hpx⟩
    · rcases hc with hc | ⟨f', hf', hcx⟩
      · exact absurd hc (by simp)
      · injection hp with hd hret
        injection hcx with hs hdst
        rw [← hdst, List.getLast?_concat] at hlast
        injection hlast with hf
        rw [hret]
        exact List.mem_append_left dirs (hf ▸ hf')
    · exact absurd hpx (by simp)

/-- Witness for C8: a directory with one file `f` and one subdirectory
`d`; the purge job retains `["f", "d"]` and the copy job targets
`["t", "f"]`, whose basename `f` is retained. -/
theorem purge_retains_copy_targets_witness :
    Job.purge ["t"] ["f", "d"] ∈
      (processDirectory cfgC8 MkdirResult.ok false ["r"] ["t"] ["d"] ["f"]).1 ∧
    Job.copy ["r", "f"] ["t", "f"] ∈
      (processDirectory cfgC8 MkdirResult.ok false ["r"] ["t"] ["d"] ["f"]).1 ∧
    "f" ∈ ["f", "d"] := by
  have h1 : Job.purge ["t"] ["f", "d"] ∈
      (processDirectory cfgC8 MkdirResult.ok false ["r"] ["t"] ["d"] ["f"]).1 := by
    simp [processDirectory, cfgC8, mkdirPropagates]
  have h2 : Job.copy ["r", "f"] ["t", "f"] ∈
      (processDirectory cfgC8 MkdirResult.ok false ["r"] ["t"] ["d"] ["f"]).1 := by
    simp [processDirectory, cfgC8, mkdirPropagates]
  exact ⟨h1, h2,
    purge_retains_copy_targets cfgC8 MkdirResult.ok false ["r"] ["t"] ["d"] ["f"]
      ["t"] ["f", "d"] ["r", "f"] ["t", "f"] "f" rfl h1 h2 (by simp)⟩

/-- Counterexample to C9: copying a single file to destination
`a/b/c` when only the root directory exists.  The copy job is submitted
with target `a/b/c`, but the target's parent `a/b` does NOT exist
afterwards: the single-level `os.mkdir` fails (its own parent `a` is
missing) and the `except OSError: pass` swallows the failure, so the
parent is only attempted, never ensured. -/
theorem singleFile_parent_cex :
    (submitSingleFile cfgC5 fsRootOnly ["s"] ["a", "b", "c"]).2 =
      [Job.copy ["s"] ["a", "b", "c"]] ∧
    ["a", "b"] ∉ (submitSingleFile cfgC5 fsRootOnly ["s"] ["a", "b", "c"]).1.dirs := by
  constructor <;>
    simp [submitSingleFile, SimpleFs.isdir, SimpleFs.mkdir, fsRootOnly, cfgC5]

/-- C9 (amended): in single-file mode the target is the destination
directory plus the source's basename when the destination is an existing
directory, and the destination path verbatim otherwise; a single-level
creation of the target's parent is attempted with any `OSError` ignored,
so the parent exists after submission only when it already existed or its
own parent existed (and no file sits at the parent's path). -/
theorem singleFile_resolution (cfg : Config) (fs : SimpleFs)
    (source destination : List String) :
    (Job.copy source
        (if fs.isdir destination then destination ++ [source.getLastD ""]
         else destination) ∈ (submitSingleFile cfg fs source destination).2) ∧
    (∀ destFile destDir : List String,
      destFile = (if fs.isdir destination then destination ++ [source.getLastD ""]
                  else destination) →
      destDir = destFile.dropLast →
      (destDir ∈ fs.dirs ∨ (destDir.dropLast ∈ fs.dirs ∧ destDir ∉ fs.files)) →
      destDir ∈ (submitSingleFile cfg fs source destination).1.dirs) := by
  constructor
  · unfold submitSingleFile
    by_cases hd : fs.isdir destination <;> simp [hd]
  · intro destFile destDir hdf hdd hex
    subst hdf
    subst hdd
    unfold submitSingleFile
    unfold SimpleFs.mkdir
    dsimp only
    by_cases hmem : (if fs.isdir destination then destination ++ [source.getLastD ""]
        else destination).dropLast ∈ fs.dirs ∨
        (if fs.isdir destination then destination ++ [source.getLastD ""]
        else destination).dropLast ∈ fs.files
    · rw [if_pos hmem]
      rcases hex with hex | hex
      · exact hex
      · rcases hmem with hmem | hmem
        · exact hmem
        · exact absurd hmem hex.2
    · rw [if_neg hmem]
      have hpar : (if fs.isdir destination then destination ++ [source.getLastD ""]
          else destination).dropLast.dropLast ∈ fs.dirs := by
        rcases hex with hex | hex
        · exact absurd (Or.inl hex) hmem
        · exact hex.1
      rw [if_pos hpar]
      exact List.mem_cons_self _ _

/-- Witness for C9's amended statement: destination `x/y` under an
existing root — the copy targets `x/y` verbatim and the parent `x` does
exist after submission (its parent, the root, existed). -/
theorem singleFile_resolution_witness :
    Job.copy ["s"] ["x", "y"] ∈
      (submitSingleFile cfgC5 fsRootOnly ["s"] ["x", "y"]).2 ∧
    ["x"] ∈ (submitSingleFile cfgC5 fsRootOnly ["s"] ["x", "y"]).1.dirs := by
  have h := singleFile_resolution cfgC5 fsRootOnly ["s"] ["x", "y"]
  have hdir : fsRootOnly.isdir ["x", "y"] = false := by
    simp [SimpleFs.isdir, fsRootOnly]
  constructor
  · have h1 := h.1
    rw [hdir] at h1
    simpa using h1
  · exact h.2 ["x", "y"] ["x"] (by rw [hdir]; rfl) rfl
      (Or.inr (by simp [fsRootOnly]))

end PyCopier
